import Mathlib

/-!
Shallow embedding of the admiral-ts client SDK (files `src/client/lib/auth.ts`,
`src/client/lib/config.ts`, `src/client/lib/transport.ts`, `src/client/client.ts`)
together with theorems settling the behavioral claims about it.

Modelling conventions:
* JavaScript strings are Lean `String`s; string operations are implemented over
  the underlying character list so that they evaluate by kernel reduction.
  Wherever the source reads `String.prototype.length`, the model counts UTF-16
  code units (`utf16Len`), and the `\s` regex class is the full ECMA-262
  whitespace set, not just its ASCII part.
* External runtime primitives that the repository merely calls — Node's
  `Buffer.from(_, "base64")` decoder, `JSON.parse` and `Date.now()` — are
  explicit parameters (`bufferDecode`, `jsonParse`, `now`).  Theorems quantify
  over them, adding only hypotheses that are facts of the real primitives
  where a claim needs them.  `new Date(ms).toISOString()` is modelled by
  `dateToISOString` over an abstract formatter `isoFmt`: ECMA-262 clips time
  values at |ms| ≤ 8.64e15, and beyond that `toISOString` throws a
  `RangeError`, so the model is fallible there.
* A TypeScript function that can `throw` is embedded with result type
  `Except String _`; `try`/`catch` becomes a `match` on that `Except`, and an
  uncaught exception is an `Except.error` result of the whole function.
* JavaScript truthiness on optional numbers/strings (`!claims.exp`,
  `if (resolved.authToken)`, …) is embedded by `numTruthy` / `strTruthy`:
  `none` and `some 0` / `some ""` are falsy.
-/

namespace Admiral

/-- Truthiness of an optional JS number: `undefined` and `0` are falsy. -/
def numTruthy : Option Int → Bool
  | none => false
  | some n => n != 0

/-- Truthiness of an optional JS string: `undefined` and `""` are falsy. -/
def strTruthy : Option String → Bool
  | none => false
  | some s => s != ""

/-- UTF-16 code-unit count of a string (models JS `String.prototype.length`):
astral code points (U+10000 and above) occupy two code units. -/
def utf16Len (s : String) : Nat :=
  (s.data.map (fun c => if 0x10000 ≤ c.toNat then 2 else 1)).sum

/-- JS regex `\s` whitespace class (ECMA-262 WhiteSpace and LineTerminator):
tab, LF, VT, FF, CR, space, NBSP, Ogham space mark, the U+2000–U+200A space
separators, line and paragraph separators, NNBSP, MMSP, ideographic space
and the BOM (U+FEFF). -/
def isSpaceJS (c : Char) : Bool :=
  c == ' ' || c == '\t' || c == '\n' || c == '\r' || c == '\x0b' || c == '\x0c' ||
  c.toNat == 0xa0 || c.toNat == 0x1680 ||
  (0x2000 ≤ c.toNat && c.toNat ≤ 0x200a) ||
  c.toNat == 0x2028 || c.toNat == 0x2029 || c.toNat == 0x202f ||
  c.toNat == 0x205f || c.toNat == 0x3000 || c.toNat == 0xfeff

/-- Auxiliary splitter for `splitOnDot`, structurally recursive on the input. -/
def splitOnDotAux : List Char → List Char → List String
  | [], acc => [String.mk acc.reverse]
  | c :: rest, acc =>
    if c == '.' then String.mk acc.reverse :: splitOnDotAux rest []
    else splitOnDotAux rest (c :: acc)

/-- Models JS `token.split(".")`: `"" ↦ [""]`, `"a..b" ↦ ["a","","b"]`. -/
def splitOnDot (s : String) : List String := splitOnDotAux s.data []

/-- Models JS `token.includes(".")`. -/
def containsDot (s : String) : Bool := s.data.any (fun c => c == '.')

/-- Models JS `s.replace(/\/$/, "")`: removes one trailing slash, if any. -/
def stripTrailingSlash (s : String) : String :=
  match s.data.getLast? with
  | some c => if c == '/' then String.mk s.data.dropLast else s
  | none => s

/-- Standard JWT claims (interface `JWTClaims` in `auth.ts`).  Timestamp
claims are integers; `aud` may be a string or an array of strings. -/
structure JWTClaims where
  iss : Option String := none
  sub : Option String := none
  aud : Option (String ⊕ List String) := none
  exp : Option Int := none
  nbf : Option Int := none
  iat : Option Int := none
  jti : Option String := none
deriving DecidableEq

/-- Token validation result (interface `TokenValidation` in `auth.ts`). -/
structure TokenValidation where
  valid : Bool
  error : Option String := none
  claims : Option JWTClaims := none
deriving DecidableEq

/-- Result of `getTokenInfo` in `auth.ts`. -/
structure TokenInfo where
  claims : JWTClaims
  isExpired : Bool
  expiresIn : Int
deriving DecidableEq

/-- `isTokenExpired` from `auth.ts`: `if (!claims.exp) return false;
return Date.now() >= claims.exp * 1000;`.  `now` models `Date.now()`. -/
def isTokenExpired (now : Int) (claims : JWTClaims) : Bool :=
  if !numTruthy claims.exp then false
  else decide (now ≥ claims.exp.getD 0 * 1000)

/-- `isTokenNotYetValid` from `auth.ts`: `if (!claims.nbf) return false;
return Date.now() < claims.nbf * 1000;`. -/
def isTokenNotYetValid (now : Int) (claims : JWTClaims) : Bool :=
  if !numTruthy claims.nbf then false
  else decide (now < claims.nbf.getD 0 * 1000)

/-- `tokenExpiresIn` from `auth.ts`: `if (!claims.exp) return 0;
return claims.exp * 1000 - Date.now();`. -/
def tokenExpiresIn (now : Int) (claims : JWTClaims) : Int :=
  if !numTruthy claims.exp then 0
  else claims.exp.getD 0 * 1000 - now

/-- Models JS `token.replace(/^Bearer\s+/i, "")`: if the string starts with
case-insensitive `Bearer` followed by at least one whitespace character, drop
that prefix together with all the following whitespace; otherwise unchanged. -/
def stripBearer (token : String) : String :=
  match token.data with
  | c1 :: c2 :: c3 :: c4 :: c5 :: c6 :: rest =>
    if (c1 == 'B' || c1 == 'b') && (c2 == 'E' || c2 == 'e') &&
       (c3 == 'A' || c3 == 'a') && (c4 == 'R' || c4 == 'r') &&
       (c5 == 'E' || c5 == 'e') && (c6 == 'R' || c6 == 'r') then
      match rest with
      | c :: _ => if isSpaceJS c then String.mk (rest.dropWhile isSpaceJS) else token
      | [] => token
    else token
  | _ => token

/-- `base64UrlDecode` from `auth.ts`: translate `-`→`+` and `_`→`/`, pad with
`=` to a multiple-of-4 length, then decode.  `bufferDecode` models Node's
total (never-throwing) `Buffer.from(_, "base64").toString("utf-8")`. -/
def base64UrlDecode (bufferDecode : String → String) (input : String) : String :=
  let base64 := String.mk (input.data.map
    (fun c => if c == '-' then '+' else if c == '_' then '/' else c))
  let padding := utf16Len base64 % 4
  let padded :=
    if padding != 0 then base64 ++ String.mk (List.replicate (4 - padding) '=')
    else base64
  bufferDecode padded

/-- `parseJWTToken` from `auth.ts`.  `jsonParse` models `JSON.parse` followed
by the cast to `JWTClaims`; its `Except.error` payload is the JS error
message.  A thrown exception is an `Except.error` result. -/
def parseJWTToken (bufferDecode : String → String)
    (jsonParse : String → Except String JWTClaims)
    (token : String) : Except String JWTClaims :=
  let parts := splitOnDot token
  if parts.length != 3 then
    Except.error ("Invalid token format: expected 3 parts, got " ++ toString parts.length)
  else
    let payload := parts.getD 1 ""
    if payload == "" then
      Except.error "Invalid token format: missing payload"
    else
      match jsonParse (base64UrlDecode bufferDecode payload) with
      | Except.ok claims => Except.ok claims
      | Except.error e => Except.error ("Failed to parse token payload: " ++ e)

/-- Models `new Date(ms).toISOString()`.  ECMA-262 time values are clipped
at |ms| ≤ 8.64e15; beyond that the Date is invalid and `toISOString` throws
a `RangeError` ("Invalid time value").  `isoFmt` models the formatting of a
valid time value, which never throws. -/
def dateToISOString (isoFmt : Int → String) (ms : Int) : Except String String :=
  if ms.natAbs ≤ 8640000000000000 then Except.ok (isoFmt ms)
  else Except.error "Invalid time value"

/-- `validateAuthToken` from `auth.ts`.  The result type is `Except` so
that an uncaught exception is visible as an `Except.error`; the
`try`/`catch` around `parseJWTToken` is the `match` on its result, while
the `RangeError` a `toISOString` call may throw in the expired and
not-before branches propagates out (the source has no `catch` there). -/
def validateAuthToken (bufferDecode : String → String)
    (jsonParse : String → Except String JWTClaims)
    (isoFmt : Int → String) (now : Int)
    (token : String) : Except String TokenValidation :=
  if token == "" then
    Except.ok { valid := false, error := some "Auth token is empty" }
  else
    let actualToken := stripBearer token
    if !containsDot actualToken then
      if utf16Len actualToken < 10 then
        Except.ok { valid := false,
                    error := some ("Token appears too short (length: " ++ toString (utf16Len actualToken) ++ ")") }
      else
        Except.ok { valid := true }
    else
      match parseJWTToken bufferDecode jsonParse actualToken with
      | Except.error e => Except.ok { valid := false, error := some e }
      | Except.ok claims =>
        if isTokenExpired now claims then
          match (if numTruthy claims.exp then dateToISOString isoFmt (claims.exp.getD 0 * 1000)
                 else Except.ok "unknown") with
          | Except.error e => Except.error e
          | Except.ok expDate =>
            Except.ok { valid := false, error := some ("Token expired at " ++ expDate),
                        claims := some claims }
        else if isTokenNotYetValid now claims then
          match (if numTruthy claims.nbf then dateToISOString isoFmt (claims.nbf.getD 0 * 1000)
                 else Except.ok "unknown") with
          | Except.error e => Except.error e
          | Except.ok nbfDate =>
            Except.ok { valid := false, error := some ("Token not yet valid until " ++ nbfDate),
                        claims := some claims }
        else
          Except.ok { valid := true, claims := some claims }

/-- `getTokenInfo` from `auth.ts`: strips the Bearer marker, parses the JWT
(which may throw, hence `Except`), and reports expiration data. -/
def getTokenInfo (bufferDecode : String → String)
    (jsonParse : String → Except String JWTClaims)
    (now : Int) (token : String) : Except String TokenInfo :=
  let actualToken := stripBearer token
  match parseJWTToken bufferDecode jsonParse actualToken with
  | Except.error e => Except.error e
  | Except.ok claims =>
    Except.ok { claims := claims, isExpired := isTokenExpired now claims,
                expiresIn := tokenExpiresIn now claims }

/-- Logger instance (interface `Logger` in `logger.ts`); only its identity
matters to the claims, so it is modelled as a tagged value. -/
structure Logger where
  tag : String := ""
deriving DecidableEq

/-- The silent default logger (`noopLogger` in `logger.ts`). -/
def noopLogger : Logger := {}

/-- Authorization header scheme (`AuthScheme` in `config.ts`). -/
inductive AuthScheme where
  | bearer
  | token
deriving DecidableEq

/-- HTTP version (`"1.1" | "2"` in `config.ts`). -/
inductive HttpVersion where
  | h11
  | h2
deriving DecidableEq

/-- Client configuration options (interface `ClientConfig` in `config.ts`).
A JS object's absent optional field is `none`; `headers` is an association
list modelling the `Record<string, string>`. -/
structure ClientConfig where
  baseUrl : Option String := none
  authToken : Option String := none
  authScheme : Option AuthScheme := none
  timeout : Option Int := none
  httpVersion : Option HttpVersion := none
  headers : Option (List (String × String)) := none
  logger : Option Logger := none
deriving DecidableEq

/-- Shape of `DEFAULT_CONFIG` in `config.ts`. -/
structure DefaultConfigT where
  baseUrl : String
  timeout : Int
  httpVersion : HttpVersion
  authScheme : AuthScheme
deriving DecidableEq

/-- `DEFAULT_CONFIG` from `config.ts`. -/
def DEFAULT_CONFIG : DefaultConfigT :=
  { baseUrl := "https://api.admiral.io", timeout := 30000,
    httpVersion := HttpVersion.h2, authScheme := AuthScheme.bearer }

/-- Result of `resolveConfig` in `config.ts` (all defaulted fields filled). -/
structure ResolvedConfig where
  baseUrl : String
  authToken : Option String
  authScheme : AuthScheme
  timeout : Int
  httpVersion : HttpVersion
  headers : Option (List (String × String))
  logger : Logger
deriving DecidableEq

/-- `resolveConfig` from `config.ts`.  `urlValid` models the `new URL(...)`
syntax check (`true` = constructor succeeds); `??` is `Option.getD`. -/
def resolveConfig (urlValid : String → Bool) (config : ClientConfig) :
    Except String ResolvedConfig :=
  let baseUrl := config.baseUrl.getD DEFAULT_CONFIG.baseUrl
  if !urlValid baseUrl then
    Except.error ("Invalid baseUrl: " ++ baseUrl)
  else
    Except.ok { baseUrl := stripTrailingSlash baseUrl,
                authToken := config.authToken,
                authScheme := config.authScheme.getD DEFAULT_CONFIG.authScheme,
                timeout := config.timeout.getD DEFAULT_CONFIG.timeout,
                httpVersion := config.httpVersion.getD DEFAULT_CONFIG.httpVersion,
                headers := config.headers,
                logger := config.logger.getD noopLogger }

/-- An interceptor in the transport pipeline, identified by its constructor
and configuration (`transport.ts` builds them from these data alone). -/
inductive Interceptor where
  | timeout (ms : Int)
  | headers (hs : List (String × String))
  | auth (pfx : String) (authToken : String)
deriving DecidableEq

/-- `createAuthInterceptor` from `transport.ts`: header marker `Token` for
the `token` scheme, otherwise `Bearer`. -/
def createAuthInterceptor (authToken : String) (scheme : AuthScheme) : Interceptor :=
  let pfx := if scheme == AuthScheme.token then "Token" else "Bearer"
  Interceptor.auth pfx authToken

/-- `createHeadersInterceptor` from `transport.ts`. -/
def createHeadersInterceptor (headers : List (String × String)) : Interceptor :=
  Interceptor.headers headers

/-- `createTimeoutInterceptor` from `transport.ts`. -/
def createTimeoutInterceptor (timeoutMs : Int) : Interceptor :=
  Interceptor.timeout timeoutMs

/-- The Connect transport as observable from this repository: the data the
code passes to the external `createConnectTransport`. -/
structure Transport where
  baseUrl : String
  httpVersion : HttpVersion
  interceptors : List Interceptor
deriving DecidableEq

/-- `createTransport` from `transport.ts`: resolve the config (propagating
its exception), then push the timeout interceptor, the headers interceptor
when at least one header is present, and the auth interceptor when the
token is truthy. -/
def createTransport (urlValid : String → Bool) (config : ClientConfig) :
    Except String Transport :=
  match resolveConfig urlValid config with
  | Except.error e => Except.error e
  | Except.ok resolved =>
    let interceptors : List Interceptor := [createTimeoutInterceptor resolved.timeout]
    let interceptors :=
      if (match resolved.headers with
          | some hs => decide (0 < hs.length)
          | none => false) then
        interceptors ++ [createHeadersInterceptor (resolved.headers.getD [])]
      else interceptors
    let interceptors :=
      if strTruthy resolved.authToken then
        interceptors ++ [createAuthInterceptor (resolved.authToken.getD "") resolved.authScheme]
      else interceptors
    Except.ok { baseUrl := resolved.baseUrl, httpVersion := resolved.httpVersion,
                interceptors := interceptors }

/-- The twelve remote services exposed by the client (`client.ts`).  The
`variable` service is `variableSvc` because `variable` is a Lean keyword. -/
inductive ServiceId where
  | cluster
  | runner
  | user
  | application
  | component
  | connection
  | deployment
  | environment
  | healthcheck
  | source
  | state
  | variableSvc
deriving DecidableEq

/-- A service handle produced by the external `createConnectClient`.  The
`id` field models JS object identity (each call allocates a fresh object). -/
structure ConnectHandle where
  id : Nat
  api : ServiceId
  transport : Transport
deriving DecidableEq

/-- Models the external `createConnectClient(API, transport)`; `id` is the
allocation counter supplied by the state it runs in. -/
def createConnectClient (api : ServiceId) (transport : Transport) (id : Nat) : ConnectHandle :=
  { id := id, api := api, transport := transport }

/-- The mutable closure state of the object returned by `createClient`: the
shared transport, the allocation counter, and the twelve lazily-initialized
service-client slots (`_cluster`, …, `_variable` in `client.ts`). -/
structure ClientState where
  transport : Transport
  nextId : Nat := 0
  _cluster : Option ConnectHandle := none
  _runner : Option ConnectHandle := none
  _user : Option ConnectHandle := none
  _application : Option ConnectHandle := none
  _component : Option ConnectHandle := none
  _connection : Option ConnectHandle := none
  _deployment : Option ConnectHandle := none
  _environment : Option ConnectHandle := none
  _healthcheck : Option ConnectHandle := none
  _source : Option ConnectHandle := none
  _state : Option ConnectHandle := none
  _variable : Option ConnectHandle := none
deriving DecidableEq

/-- The memo slot a given service accessor reads and writes. -/
def serviceSlot (st : ClientState) : ServiceId → Option ConnectHandle
  | ServiceId.cluster => st._cluster
  | ServiceId.runner => st._runner
  | ServiceId.user => st._user
  | ServiceId.application => st._application
  | ServiceId.component => st._component
  | ServiceId.connection => st._connection
  | ServiceId.deployment => st._deployment
  | ServiceId.environment => st._environment
  | ServiceId.healthcheck => st._healthcheck
  | ServiceId.source => st._source
  | ServiceId.state => st._state
  | ServiceId.variableSvc => st._variable

/-- One property read on the client object (`get cluster() { ... }`, … in
`client.ts`): if the slot is unset, construct the handle over the shared
transport and memoize it; otherwise return the stored handle unchanged. -/
def accessService (st : ClientState) : ServiceId → ConnectHandle × ClientState
  | ServiceId.cluster =>
    match st._cluster with
    | some h => (h, st)
    | none =>
      let h := createConnectClient ServiceId.cluster st.transport st.nextId
      (h, { st with _cluster := some h, nextId := st.nextId + 1 })
  | ServiceId.runner =>
    match st._runner with
    | some h => (h, st)
    | none =>
      let h := createConnectClient ServiceId.runner st.transport st.nextId
      (h, { st with _runner := some h, nextId := st.nextId + 1 })
  | ServiceId.user =>
    match st._user with
    | some h => (h, st)
    | none =>
      let h := createConnectClient ServiceId.user st.transport st.nextId
      (h, { st with _user := some h, nextId := st.nextId + 1 })
  | ServiceId.application =>
    match st._application with
    | some h => (h, st)
    | none =>
      let h := createConnectClient ServiceId.application st.transport st.nextId
      (h, { st with _application := some h, nextId := st.nextId + 1 })
  | ServiceId.component =>
    match st._component with
    | some h => (h, st)
    | none =>
      let h := createConnectClient ServiceId.component st.transport st.nextId
      (h, { st with _component := some h, nextId := st.nextId + 1 })
  | ServiceId.connection =>
    match st._connection with
    | some h => (h, st)
    | none =>
      let h := createConnectClient ServiceId.connection st.transport st.nextId
      (h, { st with _connection := some h, nextId := st.nextId + 1 })
  | ServiceId.deployment =>
    match st._deployment with
    | some h => (h, st)
    | none =>
      let h := createConnectClient ServiceId.deployment st.transport st.nextId
      (h, { st with _deployment := some h, nextId := st.nextId + 1 })
  | ServiceId.environment =>
    match st._environment with
    | some h => (h, st)
    | none =>
      let h := createConnectClient ServiceId.environment st.transport st.nextId
      (h, { st with _environment := some h, nextId := st.nextId + 1 })
  | ServiceId.healthcheck =>
    match st._healthcheck with
    | some h => (h, st)
    | none =>
      let h := createConnectClient ServiceId.healthcheck st.transport st.nextId
      (h, { st with _healthcheck := some h, nextId := st.nextId + 1 })
  | ServiceId.source =>
    match st._source with
    | some h => (h, st)
    | none =>
      let h := createConnectClient ServiceId.source st.transport st.nextId
      (h, { st with _source := some h, nextId := st.nextId + 1 })
  | ServiceId.state =>
    match st._state with
    | some h => (h, st)
    | none =>
      let h := createConnectClient ServiceId.state st.transport st.nextId
      (h, { st with _state := some h, nextId := st.nextId + 1 })
  | ServiceId.variableSvc =>
    match st._variable with
    | some h => (h, st)
    | none =>
      let h := createConnectClient ServiceId.variableSvc st.transport st.nextId
      (h, { st with _variable := some h, nextId := st.nextId + 1 })

/-- `createClient` from `client.ts`: resolve the config (for the logger) and
build the single shared transport, both propagating exceptions; all service
slots start unset. -/
def createClient (urlValid : String → Bool) (config : ClientConfig) :
    Except String ClientState :=
  match resolveConfig urlValid config with
  | Except.error e => Except.error e
  | Except.ok _resolved =>
    match createTransport urlValid config with
    | Except.error e => Except.error e
    | Except.ok transport => Except.ok { transport := transport }

/-- The states reachable from a client state by property reads. -/
inductive Reaches : ClientState → ClientState → Prop where
  | refl (st : ClientState) : Reaches st st
  | step (st t : ClientState) (s : ServiceId) :
      Reaches st t → Reaches st (accessService t s).2

/-- The client's `validateToken()` method (`client.ts`): reports a missing
token, otherwise delegates to `validateAuthToken` on the configured token. -/
def clientValidateToken (bufferDecode : String → String)
    (jsonParse : String → Except String JWTClaims)
    (isoFmt : Int → String) (now : Int)
    (config : ClientConfig) : Except String TokenValidation :=
  if !strTruthy config.authToken then
    Except.ok { valid := false, error := some "No auth token configured" }
  else
    validateAuthToken bufferDecode jsonParse isoFmt now (config.authToken.getD "")

/-- The client's `getTokenInfo()` method (`client.ts`): `null` without a
token, otherwise `getTokenInfo` with every exception caught to `null`. -/
def clientGetTokenInfo (bufferDecode : String → String)
    (jsonParse : String → Except String JWTClaims)
    (now : Int) (config : ClientConfig) : Option TokenInfo :=
  if !strTruthy config.authToken then none
  else
    match getTokenInfo bufferDecode jsonParse now (config.authToken.getD "") with
    | Except.ok info => some info
    | Except.error _ => none

end Admiral

namespace Admiral

lemma numTruthy_of_expired {now : Int} {claims : JWTClaims}
    (h : isTokenExpired now claims = true) : numTruthy claims.exp = true := by
  cases hnt : numTruthy claims.exp with
  | false => rw [isTokenExpired, hnt] at h; simp at h
  | true => rfl

lemma numTruthy_of_notYetValid {now : Int} {claims : JWTClaims}
    (h : isTokenNotYetValid now claims = true) : numTruthy claims.nbf = true := by
  cases hnt : numTruthy claims.nbf with
  | false => rw [isTokenNotYetValid, hnt] at h; simp at h
  | true => rfl

lemma validateAuthToken_error_iff (bd : String → String)
    (jp : String → Except String JWTClaims) (isoFmt : Int → String)
    (now : Int) (token : String) :
    (∃ e, validateAuthToken bd jp isoFmt now token = Except.error e) ↔
      (token ≠ "" ∧ containsDot (stripBearer token) = true ∧
       ∃ c : JWTClaims, parseJWTToken bd jp (stripBearer token) = Except.ok c ∧
         ((isTokenExpired now c = true ∧
             8640000000000000 < (c.exp.getD 0 * 1000).natAbs) ∨
          (isTokenExpired now c = false ∧ isTokenNotYetValid now c = true ∧
             8640000000000000 < (c.nbf.getD 0 * 1000).natAbs))) := by
  by_cases h0 : token = ""
  · subst h0
    simp [validateAuthToken]
  · have h1 : (token == "") = false := beq_eq_false_iff_ne.mpr h0
    cases hdot : containsDot (stripBearer token) with
    | false =>
      constructor
      · rintro ⟨e, h⟩
        by_cases hlen : utf16Len (stripBearer token) < 10 <;>
          simp [validateAuthToken, h1, hdot, hlen] at h
      · rintro ⟨-, hd, -⟩
        simp at hd
    | true =>
      cases hpar : parseJWTToken bd jp (stripBearer token) with
      | error e0 =>
        constructor
        · rintro ⟨e, h⟩
          simp [validateAuthToken, h1, hdot, hpar] at h
        · rintro ⟨-, -, c, hc, -⟩
          exact absurd hc (by simp)
      | ok c =>
        cases hexp : isTokenExpired now c with
        | true =>
          have hnt : numTruthy c.exp = true := numTruthy_of_expired hexp
          by_cases hrange : (c.exp.getD 0 * 1000).natAbs ≤ 8640000000000000
          · constructor
            · rintro ⟨e, h⟩
              simp [validateAuthToken, h1, hdot, hpar, hexp, hnt,
                dateToISOString, hrange] at h
            · rintro ⟨-, -, c', hc', hcond⟩
              obtain rfl : c' = c := by simpa using hc'.symm
              rcases hcond with ⟨-, hgt⟩ | ⟨hfe, -, -⟩
              · omega
              · rw [hexp] at hfe
                exact absurd hfe (by simp)
          · constructor
            · intro _
              exact ⟨h0, rfl, c, rfl, Or.inl ⟨hexp, by omega⟩⟩
            · intro _
              refine ⟨"Invalid time value", ?_⟩
              simp [validateAuthToken, h1, hdot, hpar, hexp, hnt,
                dateToISOString, hrange]
        | false =>
          cases hnyv : isTokenNotYetValid now c with
          | true =>
            have hnt : numTruthy c.nbf = true := numTruthy_of_notYetValid hnyv
            by_cases hrange : (c.nbf.getD 0 * 1000).natAbs ≤ 8640000000000000
            · constructor
              · rintro ⟨e, h⟩
                simp [validateAuthToken, h1, hdot, hpar, hexp, hnyv, hnt,
                  dateToISOString, hrange] at h
              · rintro ⟨-, -, c', hc', hcond⟩
                obtain rfl : c' = c := by simpa using hc'.symm
                rcases hcond with ⟨hte, -⟩ | ⟨-, -, hgt⟩
                · rw [hexp] at hte
                  exact absurd hte (by simp)
                · omega
            · constructor
              · intro _
                exact ⟨h0, rfl, c, rfl, Or.inr ⟨hexp, hnyv, by omega⟩⟩
              · intro _
                refine ⟨"Invalid time value", ?_⟩
                simp [validateAuthToken, h1, hdot, hpar, hexp, hnyv, hnt,
                  dateToISOString, hrange]
          | false =>
            constructor
            · rintro ⟨e, h⟩
              simp [validateAuthToken, h1, hdot, hpar, hexp, hnyv] at h
            · rintro ⟨-, -, c', hc', hcond⟩
              obtain rfl : c' = c := by simpa using hc'.symm
              rcases hcond with ⟨hte, -⟩ | ⟨-, htn, -⟩
              · rw [hexp] at hte
                exact absurd hte (by simp)
              · rw [hnyv] at htn
                exact absurd htn (by simp)

/-- C1 counterexample: a crafted JWT payload with `exp = -9e12` parses
fine and counts as expired, but the claimed invalid-with-message result is
not produced — `new Date(-9e15).toISOString()` throws an uncaught
`RangeError`, so `validateAuthToken` throws instead of returning. -/
theorem validateAuthToken_jwt_counterexample :
    containsDot (stripBearer "h.p.s") = true ∧
    parseJWTToken (fun s => s)
        (fun _ => Except.ok { exp := some (-9000000000000) }) (stripBearer "h.p.s") =
      Except.ok { exp := some (-9000000000000) } ∧
    isTokenExpired 1700000000000 { exp := some (-9000000000000) } = true ∧
    validateAuthToken (fun s => s)
        (fun _ => Except.ok { exp := some (-9000000000000) })
        (fun _ => "ISO") 1700000000000 "h.p.s" =
      Except.error "Invalid time value" := by
  refine ⟨by decide, by rfl, by decide, by rfl⟩

/-- C1 (amended): on any token whose Bearer-stripped form contains a dot,
`validateAuthToken` parses it as a JWT; a parse failure yields an invalid
result carrying the parse error message; an expired claims object yields an
invalid result with message `Token expired at <ISO>` and the claims when
`|exp·1000| ≤ 8.64e15`, and otherwise the `toISOString` call throws an
uncaught `RangeError`; a not-yet-valid claims object (checked only after
expiration, so an expired token reports expiration even when also not yet
valid) likewise yields `Token not yet valid until <ISO>` with the claims
when `|nbf·1000| ≤ 8.64e15` and throws otherwise; otherwise the result is
valid with the parsed claims. -/
theorem validateAuthToken_jwt_branches_amended (bd : String → String)
    (jp : String → Except String JWTClaims) (isoFmt : Int → String)
    (now : Int) (token : String)
    (hdot : containsDot (stripBearer token) = true) :
    (∀ e : String, parseJWTToken bd jp (stripBearer token) = Except.error e →
       validateAuthToken bd jp isoFmt now token =
         Except.ok { valid := false, error := some e }) ∧
    (∀ c : JWTClaims, parseJWTToken bd jp (stripBearer token) = Except.ok c →
       ((∀ ex : Int, c.exp = some ex → isTokenExpired now c = true →
           (((ex * 1000).natAbs ≤ 8640000000000000 →
               validateAuthToken bd jp isoFmt now token =
                 Except.ok { valid := false,
                             error := some ("Token expired at " ++ isoFmt (ex * 1000)),
                             claims := some c }) ∧
            (8640000000000000 < (ex * 1000).natAbs →
               validateAuthToken bd jp isoFmt now token =
                 Except.error "Invalid time value"))) ∧
        (∀ nb : Int, c.nbf = some nb → isTokenExpired now c = false →
           isTokenNotYetValid now c = true →
           (((nb * 1000).natAbs ≤ 8640000000000000 →
               validateAuthToken bd jp isoFmt now token =
                 Except.ok { valid := false,
                             error := some ("Token not yet valid until " ++ isoFmt (nb * 1000)),
                             claims := some c }) ∧
            (8640000000000000 < (nb * 1000).natAbs →
               validateAuthToken bd jp isoFmt now token =
                 Except.error "Invalid time value"))) ∧
        (isTokenExpired now c = false → isTokenNotYetValid now c = false →
           validateAuthToken bd jp isoFmt now token =
             Except.ok { valid := true, claims := some c }))) := by
  have hne : (token == "") = false := by
    cases h : (token == "") with
    | false => rfl
    | true =>
      rw [beq_iff_eq] at h
      subst h
      exact absurd hdot (by decide)
  constructor
  · intro e he
    simp [validateAuthToken, hne, hdot, he]
  · intro c hc
    refine ⟨?_, ?_, ?_⟩
    · intro ex hex hexp
      have hnt : numTruthy c.exp = true := numTruthy_of_expired hexp
      rw [hex] at hnt
      constructor
      · intro hrange
        simp [validateAuthToken, hne, hdot, hc, hexp, hex, hnt,
          dateToISOString, hrange]
      · intro hrange
        have hr2 : ¬ ((ex * 1000).natAbs ≤ 8640000000000000) := by omega
        simp [validateAuthToken, hne, hdot, hc, hexp, hex, hnt,
          dateToISOString, hr2]
    · intro nb hnb hexp hnyv
      have hnt : numTruthy c.nbf = true := numTruthy_of_notYetValid hnyv
      rw [hnb] at hnt
      constructor
      · intro hrange
        simp [validateAuthToken, hne, hdot, hc, hexp, hnyv, hnb, hnt,
          dateToISOString, hrange]
      · intro hrange
        have hr2 : ¬ ((nb * 1000).natAbs ≤ 8640000000000000) := by omega
        simp [validateAuthToken, hne, hdot, hc, hexp, hnyv, hnb, hnt,
          dateToISOString, hr2]
    · intro hexp hnyv
      simp [validateAuthToken, hne, hdot, hc, hexp, hnyv]

/-- Witness for the amended C1 at a concrete in-range expired token. -/
theorem validateAuthToken_jwt_branches_amended_witness :
    validateAuthToken (fun s => s) (fun _ => Except.ok { exp := some 1 })
        (fun _ => "1970-01-01T00:00:01.000Z") 5000 "a.b.c" =
      Except.ok { valid := false,
                  error := some "Token expired at 1970-01-01T00:00:01.000Z",
                  claims := some { exp := some 1 } } :=
  ((((validateAuthToken_jwt_branches_amended (fun s => s)
      (fun _ => Except.ok { exp := some 1 })
      (fun _ => "1970-01-01T00:00:01.000Z") 5000 "a.b.c" (by decide)).2
        { exp := some 1 } (by rfl)).1 1 rfl (by decide)).1 (by decide))

/-- C2 counterexample: the code treats a present `exp` claim equal to `0`
as absent (JS falsiness), so with `exp = 0` and current time `1` the token
is not reported expired although `1 ≥ 0 * 1000`, and `tokenExpiresIn` is
`0` rather than `0 * 1000 - 1`; moreover at the exact expiry instant
(`exp = 1`, time `1000`) the token is expired while the reported
time-to-expiry is `0`, which is not negative — refuting the claimed
"negative exactly when expired". -/
theorem tokenExpiry_claim_counterexample :
    isTokenExpired 1 ({ exp := some 0 } : JWTClaims) = false ∧
    ((0 : Int) * 1000 ≤ 1) ∧
    tokenExpiresIn 1 ({ exp := some 0 } : JWTClaims) = 0 ∧
    ((0 : Int) * 1000 - 1 ≠ 0) ∧
    isTokenExpired 1000 ({ exp := some 1 } : JWTClaims) = true ∧
    tokenExpiresIn 1000 ({ exp := some 1 } : JWTClaims) = 0 ∧
    ¬ ((0 : Int) < 0) := by
  refine ⟨by decide, by decide, by decide, by decide, by decide, by decide, by decide⟩

/-- C2 (amended): if the `exp` claim is absent or equal to `0`,
`isTokenExpired` is false and `tokenExpiresIn` is `0`; otherwise the token
is expired exactly when the current time is at least `exp * 1000`, the
time-to-expiry is `exp * 1000` minus the current time, and it is negative
exactly when the current time strictly exceeds `exp * 1000`. -/
theorem tokenExpiry_amended (now : Int) (claims : JWTClaims) :
    ((claims.exp = none ∨ claims.exp = some 0) →
        isTokenExpired now claims = false ∧ tokenExpiresIn now claims = 0) ∧
    (∀ e : Int, claims.exp = some e → e ≠ 0 →
        ((isTokenExpired now claims = true ↔ e * 1000 ≤ now) ∧
         tokenExpiresIn now claims = e * 1000 - now ∧
         (tokenExpiresIn now claims < 0 ↔ e * 1000 < now))) := by
  constructor
  · rintro (h | h) <;> simp [isTokenExpired, tokenExpiresIn, numTruthy, h]
  · intro e he hne
    refine ⟨?_, ?_, ?_⟩ <;>
      simp [isTokenExpired, tokenExpiresIn, numTruthy, he, hne]

/-- Witness for the amended C2 at `exp = 2`, time `5000`. -/
theorem tokenExpiry_amended_witness :
    isTokenExpired 5000 ({ exp := some 2 } : JWTClaims) = true :=
  (((tokenExpiry_amended 5000 { exp := some 2 }).2 2 rfl (by decide)).1).mpr (by decide)

/-- C3: with a nonnegative current time (as `Date.now()` always is), a
claims object without `nbf` is never "not yet valid", and with `nbf`
present `isTokenNotYetValid` holds exactly when the current time is
strictly below `nbf * 1000`. -/
theorem isTokenNotYetValid_spec (now : Int) (claims : JWTClaims) (hnow : 0 ≤ now) :
    (claims.nbf = none → isTokenNotYetValid now claims = false) ∧
    (∀ n : Int, claims.nbf = some n →
        (isTokenNotYetValid now claims = true ↔ now < n * 1000)) := by
  refine ⟨fun h => by simp [isTokenNotYetValid, numTruthy, h], ?_⟩
  intro n hn
  by_cases hz : n = 0
  · subst hz
    simp [isTokenNotYetValid, numTruthy, hn]
    omega
  · simp [isTokenNotYetValid, numTruthy, hn, hz]

/-- Witness for C3 at `nbf = 5`, time `0`. -/
theorem isTokenNotYetValid_spec_witness :
    isTokenNotYetValid 0 ({ nbf := some 5 } : JWTClaims) = true :=
  ((isTokenNotYetValid_spec 0 { nbf := some 5 } (by decide)).2 5 rfl).mpr (by decide)

/-- C4: given that the base64 decoder maps `""` to `""` and JSON-parsing
of `""` fails (facts of Node's `Buffer` and `JSON.parse`), `parseJWTToken`
fails exactly when splitting the token on `.` does not yield 3 segments or
when JSON-parsing the base64url-decoded second segment fails, and
otherwise returns exactly the claims parsed from that decoded payload. -/
theorem parseJWTToken_spec (bd : String → String)
    (jp : String → Except String JWTClaims)
    (hb : bd "" = "") (hj : ∃ e0, jp "" = Except.error e0)
    (token : String) :
    ((∃ e, parseJWTToken bd jp token = Except.error e) ↔
       ((splitOnDot token).length ≠ 3 ∨
         ∃ e, jp (base64UrlDecode bd ((splitOnDot token).getD 1 "")) = Except.error e)) ∧
    (∀ c : JWTClaims, parseJWTToken bd jp token = Except.ok c ↔
       ((splitOnDot token).length = 3 ∧
         jp (base64UrlDecode bd ((splitOnDot token).getD 1 "")) = Except.ok c)) := by
  obtain ⟨e0, hj⟩ := hj
  by_cases hlen : (splitOnDot token).length = 3
  · obtain ⟨p0, p1, p2, hsp⟩ : ∃ p0 p1 p2, splitOnDot token = [p0, p1, p2] := by
      rcases h : splitOnDot token with _ | ⟨a, _ | ⟨b, _ | ⟨c3, _ | ⟨d, tl⟩⟩⟩⟩ <;>
        rw [h] at hlen <;> simp at hlen
      exact ⟨a, b, c3, rfl⟩
    have hdec0 : base64UrlDecode bd "" = bd "" := rfl
    have hpj : parseJWTToken bd jp token =
        (if p1 = "" then Except.error "Invalid token format: missing payload"
         else
           match jp (base64UrlDecode bd p1) with
           | Except.ok claims => Except.ok claims
           | Except.error e => Except.error ("Failed to parse token payload: " ++ e)) := by
      simp [parseJWTToken, hsp]
    rw [hsp, hpj]
    simp only [List.length_cons, List.length_nil, List.getD_cons_succ, List.getD_cons_zero]
    by_cases hp : p1 = ""
    · subst hp
      rw [if_pos rfl, hdec0, hb, hj]
      constructor
      · constructor
        · intro _
          exact Or.inr ⟨e0, rfl⟩
        · intro _
          exact ⟨_, rfl⟩
      · intro c
        constructor
        · intro h
          exact absurd h (by simp)
        · rintro ⟨-, h⟩
          exact absurd h (by simp)
    · rw [if_neg hp]
      cases hres : jp (base64UrlDecode bd p1) with
      | error e =>
        constructor
        · constructor
          · intro _
            exact Or.inr ⟨e, rfl⟩
          · intro _
            exact ⟨_, rfl⟩
        · intro c
          constructor
          · intro h
            exact absurd h (by simp)
          · rintro ⟨-, h⟩
            exact absurd h (by simp)
      | ok c0 =>
        constructor
        · constructor
          · rintro ⟨e, h⟩
            exact absurd h (by simp)
          · rintro (h | ⟨e, h⟩)
            · exact absurd rfl h
            · exact absurd h (by simp)
        · intro c
          constructor
          · intro h
            exact ⟨by simp, by simpa using h⟩
          · rintro ⟨-, h⟩
            simpa using h
  · have hlb : ((splitOnDot token).length != 3) = true := by
      simpa using hlen
    constructor
    · constructor
      · intro _
        exact Or.inl hlen
      · intro _
        refine ⟨"Invalid token format: expected 3 parts, got " ++
          toString (splitOnDot token).length, ?_⟩
        simp [parseJWTToken, hlb]
    · intro c
      constructor
      · intro h
        exfalso
        simp [parseJWTToken, hlb] at h
      · rintro ⟨h, -⟩
        exact absurd h hlen

/-- Witness for C4 at the token `a.b.c` with a parser that succeeds on the
decoded payload and fails on the empty string. -/
theorem parseJWTToken_spec_witness :
    parseJWTToken (fun s => s)
        (fun s => if s == "" then Except.error "empty" else Except.ok { exp := some 1 })
        "a.b.c" = Except.ok { exp := some 1 } :=
  ((parseJWTToken_spec (fun s => s)
      (fun s => if s == "" then Except.error "empty" else Except.ok { exp := some 1 })
      rfl ⟨"empty", rfl⟩ "a.b.c").2 { exp := some 1 }).mpr ⟨by decide, by rfl⟩

/-- C5: `validateAuthToken` on the empty string is invalid with message
`Auth token is empty`; on a non-empty token whose Bearer-stripped form has
no dot it is valid exactly when that form has length at least 10, and
otherwise invalid with a message reporting that length. -/
theorem validateAuthToken_nonJwt (bd : String → String)
    (jp : String → Except String JWTClaims) (iso : Int → String) (now : Int) :
    (validateAuthToken bd jp iso now "" =
       Except.ok { valid := false, error := some "Auth token is empty" }) ∧
    (∀ token : String, token ≠ "" → containsDot (stripBearer token) = false →
       ((10 ≤ utf16Len (stripBearer token) →
           validateAuthToken bd jp iso now token = Except.ok { valid := true }) ∧
        (utf16Len (stripBearer token) < 10 →
           validateAuthToken bd jp iso now token =
             Except.ok { valid := false,
                         error := some ("Token appears too short (length: " ++
                           toString (utf16Len (stripBearer token)) ++ ")") }))) := by
  refine ⟨rfl, ?_⟩
  intro token hne hdot
  have h1 : (token == "") = false := beq_eq_false_iff_ne.mpr hne
  constructor
  · intro hlen
    have h2 : ¬ (utf16Len (stripBearer token) < 10) := by omega
    simp [validateAuthToken, h1, hdot, h2]
  · intro hlen
    simp [validateAuthToken, h1, hdot, hlen]

/-- Witness for C5 at a 14-character opaque token. -/
theorem validateAuthToken_nonJwt_witness :
    validateAuthToken (fun s => s) (fun _ => Except.error "bad") (fun _ => "ISO") 0
        "opaquetoken123" = Except.ok { valid := true } :=
  (((validateAuthToken_nonJwt (fun s => s) (fun _ => Except.error "bad")
      (fun _ => "ISO") 0).2 "opaquetoken123" (by decide) (by decide)).1 (by decide))

/-- C6: `resolveConfig` fills `baseUrl`, `timeout`, `httpVersion` and
`authScheme` from `DEFAULT_CONFIG` (whose values are spelled out) when
unsupplied, throws exactly when the chosen base URL fails the URL-syntax
check, strips a single trailing slash from the returned base URL, and
passes `authToken` and `headers` through. -/
theorem resolveConfig_spec (urlValid : String → Bool) (config : ClientConfig) :
    (DEFAULT_CONFIG = { baseUrl := "https://api.admiral.io", timeout := 30000,
                        httpVersion := HttpVersion.h2, authScheme := AuthScheme.bearer }) ∧
    ((∃ e, resolveConfig urlValid config = Except.error e) ↔
       urlValid (config.baseUrl.getD DEFAULT_CONFIG.baseUrl) = false) ∧
    (∀ r : ResolvedConfig, resolveConfig urlValid config = Except.ok r →
       (r.baseUrl = stripTrailingSlash (config.baseUrl.getD DEFAULT_CONFIG.baseUrl) ∧
        r.timeout = config.timeout.getD DEFAULT_CONFIG.timeout ∧
        r.httpVersion = config.httpVersion.getD DEFAULT_CONFIG.httpVersion ∧
        r.authScheme = config.authScheme.getD DEFAULT_CONFIG.authScheme ∧
        r.authToken = config.authToken ∧
        r.headers = config.headers)) := by
  refine ⟨rfl, ?_, ?_⟩
  · cases hv : urlValid (config.baseUrl.getD DEFAULT_CONFIG.baseUrl) with
    | false =>
      constructor
      · intro _
        rfl
      · intro _
        exact ⟨"Invalid baseUrl: " ++ config.baseUrl.getD DEFAULT_CONFIG.baseUrl,
          by simp [resolveConfig, hv]⟩
    | true =>
      constructor
      · rintro ⟨e, h⟩
        exfalso
        simp [resolveConfig, hv] at h
      · intro h
        exact absurd h (by simp)
  · intro r hr
    cases hv : urlValid (config.baseUrl.getD DEFAULT_CONFIG.baseUrl) with
    | false =>
      exfalso
      simp [resolveConfig, hv] at hr
    | true =>
      simp [resolveConfig, hv] at hr
      subst hr
      exact ⟨rfl, rfl, rfl, rfl, rfl, rfl⟩

/-- Witness for C6: a rejecting URL check yields an error. -/
theorem resolveConfig_spec_witness :
    ∃ e, resolveConfig (fun _ => false) ({ } : ClientConfig) = Except.error e :=
  ((resolveConfig_spec (fun _ => false) { }).2.1).mpr rfl

/-- C7: any transport built by `createTransport` carries, in order, the
timeout interceptor (always, with the resolved timeout), then the
custom-headers interceptor exactly when at least one header is configured,
then the authorization interceptor — marker `Token` for the `token` scheme
and `Bearer` otherwise — exactly when a non-empty auth token is
configured. -/
theorem createTransport_interceptors (urlValid : String → Bool)
    (config : ClientConfig) (t : Transport)
    (h : createTransport urlValid config = Except.ok t) :
    t.interceptors =
      [Interceptor.timeout (config.timeout.getD DEFAULT_CONFIG.timeout)]
      ++ (match config.headers with
          | some hs => if 0 < hs.length then [Interceptor.headers hs] else []
          | none => [])
      ++ (match config.authToken with
          | some tok =>
            if tok = "" then []
            else [Interceptor.auth
                    (if config.authScheme.getD DEFAULT_CONFIG.authScheme = AuthScheme.token
                     then "Token" else "Bearer") tok]
          | none => []) := by
  rw [createTransport] at h
  cases hv : resolveConfig urlValid config with
  | error e =>
    rw [hv] at h
    exact absurd h (by simp)
  | ok resolved =>
    rw [hv] at h
    have hres : resolved =
        { baseUrl := stripTrailingSlash (config.baseUrl.getD DEFAULT_CONFIG.baseUrl),
          authToken := config.authToken,
          authScheme := config.authScheme.getD DEFAULT_CONFIG.authScheme,
          timeout := config.timeout.getD DEFAULT_CONFIG.timeout,
          httpVersion := config.httpVersion.getD DEFAULT_CONFIG.httpVersion,
          headers := config.headers,
          logger := config.logger.getD noopLogger } := by
      rw [resolveConfig] at hv
      cases hu : urlValid (config.baseUrl.getD DEFAULT_CONFIG.baseUrl) with
      | false =>
        rw [hu] at hv
        exact absurd hv (by simp)
      | true =>
        rw [hu] at hv
        simpa using hv.symm
    subst hres
    obtain rfl : t =
        { baseUrl := stripTrailingSlash (config.baseUrl.getD DEFAULT_CONFIG.baseUrl),
          httpVersion := config.httpVersion.getD DEFAULT_CONFIG.httpVersion,
          interceptors := _ } := by
      simpa using h.symm
    cases hh : config.headers <;> cases ht : config.authToken <;>
      simp [hh, ht, strTruthy, beq_iff_eq, createTimeoutInterceptor,
        createHeadersInterceptor, createAuthInterceptor] <;>
      (try split_ifs) <;> (try simp)

/-- Witness for C7 with only an auth token configured. -/
theorem createTransport_interceptors_witness :
    ({ baseUrl := "https://api.admiral.io", httpVersion := HttpVersion.h2,
       interceptors := [Interceptor.timeout 30000, Interceptor.auth "Bearer" "tok"] } :
         Transport).interceptors =
      [Interceptor.timeout 30000, Interceptor.auth "Bearer" "tok"] :=
  createTransport_interceptors (fun _ => true) { authToken := some "tok" } _ (by rfl)

end Admiral

namespace Admiral

lemma accessService_state_transport (t : ClientState) (s : ServiceId) :
    (accessService t s).2.transport = t.transport := by
  cases s <;> (simp only [accessService]; split <;> rfl)

lemma accessService_slot (t : ClientState) (s s' : ServiceId) :
    serviceSlot (accessService t s).2 s' =
      if s' = s then some (accessService t s).1 else serviceSlot t s' := by
  cases s <;> cases s' <;>
    (simp only [accessService, serviceSlot]; split <;> simp_all [serviceSlot])

lemma accessService_of_none (t : ClientState) (s : ServiceId)
    (h : serviceSlot t s = none) :
    (accessService t s).1 = createConnectClient s t.transport t.nextId := by
  cases s <;> (simp only [serviceSlot] at h; simp [accessService, h])

lemma accessService_of_some (t : ClientState) (s : ServiceId) (h0 : ConnectHandle)
    (h : serviceSlot t s = some h0) :
    accessService t s = (h0, t) := by
  cases s <;> (simp only [serviceSlot] at h; simp [accessService, h])

lemma reaches_transport_inv (st t : ClientState) (hr : Reaches st t)
    (h0 : ∀ s, serviceSlot st s = none) :
    t.transport = st.transport ∧
    (∀ s h, serviceSlot t s = some h → h.transport = st.transport) := by
  induction hr with
  | refl =>
    exact ⟨rfl, fun s h hh => absurd hh (by rw [h0 s]; simp)⟩
  | step t' s hr ih =>
    refine ⟨by rw [accessService_state_transport]; exact ih.1, ?_⟩
    intro s' h hh
    rw [accessService_slot] at hh
    by_cases hss : s' = s
    · rw [if_pos hss] at hh
      obtain rfl : (accessService _ s).1 = h := by
        injection hh
      cases hslot : serviceSlot _ s with
      | none =>
        rw [accessService_of_none _ s hslot]
        exact ih.1
      | some hd =>
        rw [accessService_of_some _ s hd hslot]
        exact ih.2 s hd hslot
    · rw [if_neg hss] at hh
      exact ih.2 s' h hh

/-- C8: a client built by `createClient` starts with every service slot
unset; in every state reachable from it by property reads, reading a
service keeps the shared transport, yields a handle built over that shared
transport, stores the handle in the service's slot, constructs it via
`createConnectClient` over the client's transport exactly when the slot
was unset, and returns the stored handle with the state unchanged when the
slot was already filled (memoization). -/
theorem createClient_lazy_memoized (urlValid : String → Bool)
    (config : ClientConfig) (st : ClientState)
    (hcc : createClient urlValid config = Except.ok st) :
    (∀ s, serviceSlot st s = none) ∧
    (∀ t, Reaches st t → ∀ s,
       ((accessService t s).2.transport = st.transport ∧
        (accessService t s).1.transport = st.transport ∧
        serviceSlot (accessService t s).2 s = some (accessService t s).1 ∧
        (serviceSlot t s = none →
           (accessService t s).1 = createConnectClient s t.transport t.nextId) ∧
        (∀ h0 : ConnectHandle, serviceSlot t s = some h0 →
           accessService t s = (h0, t)))) := by
  have hinit : ∀ s, serviceSlot st s = none := by
    rw [createClient] at hcc
    cases hr : resolveConfig urlValid config with
    | error e =>
      rw [hr] at hcc
      exact absurd hcc (by simp)
    | ok resolved =>
      rw [hr] at hcc
      cases ht : createTransport urlValid config with
      | error e =>
        rw [ht] at hcc
        exact absurd hcc (by simp)
      | ok tr =>
        rw [ht] at hcc
        obtain rfl : ({ transport := tr } : ClientState) = st := by
          simpa using hcc
        intro s
        cases s <;> rfl
  refine ⟨hinit, ?_⟩
  intro t hreach s
  have hinv := reaches_transport_inv st t hreach hinit
  refine ⟨by rw [accessService_state_transport]; exact hinv.1, ?_, ?_, ?_, ?_⟩
  · cases hslot : serviceSlot t s with
    | none =>
      rw [accessService_of_none t s hslot]
      exact hinv.1
    | some hd =>
      rw [accessService_of_some t s hd hslot]
      exact hinv.2 s hd hslot
  · rw [accessService_slot]
    simp
  · exact accessService_of_none t s
  · exact accessService_of_some t s

/-- Witness for C8: the default-config client starts with an unset cluster
slot. -/
theorem createClient_lazy_memoized_witness :
    serviceSlot { transport := { baseUrl := "https://api.admiral.io",
                                 httpVersion := HttpVersion.h2,
                                 interceptors := [Interceptor.timeout 30000] } }
        ServiceId.cluster = none :=
  (createClient_lazy_memoized (fun _ => true) { } _ (by rfl)).1 ServiceId.cluster

/-- C9 counterexample: with a configured token whose payload carries
`exp = -9.1e12`, the client's `validateToken()` throws — it delegates to
`validateAuthToken` without a `try`/`catch`, and the expired branch's
`toISOString` raises an uncaught `RangeError`. -/
theorem clientValidateToken_throw_counterexample :
    clientValidateToken (fun s => s)
        (fun _ => Except.ok { exp := some (-9100000000000) })
        (fun _ => "ISO") 1700000000000 { authToken := some "e.f.g" } =
      Except.error "Invalid time value" := by rfl

/-- C9 (amended): the client's `getTokenInfo()` never throws and returns
`null` exactly when no (truthy) auth token is configured or parsing the
configured token fails, and otherwise returns the parsed claims together
with the expiration status and time-to-expiry computed by the token
utilities; `validateToken()` throws exactly when a token is configured and
the delegated `validateAuthToken` reaches an expired or not-yet-valid
branch whose timestamp is outside the representable `Date` range
(`|value·1000| > 8.64e15`), and otherwise returns a result. -/
theorem clientTokenMethods_amended (bd : String → String)
    (jp : String → Except String JWTClaims) (isoFmt : Int → String)
    (now : Int) (config : ClientConfig) :
    ((∃ e, clientValidateToken bd jp isoFmt now config = Except.error e) ↔
       (strTruthy config.authToken = true ∧
        config.authToken.getD "" ≠ "" ∧
        containsDot (stripBearer (config.authToken.getD "")) = true ∧
        ∃ c : JWTClaims,
          parseJWTToken bd jp (stripBearer (config.authToken.getD "")) = Except.ok c ∧
          ((isTokenExpired now c = true ∧
              8640000000000000 < (c.exp.getD 0 * 1000).natAbs) ∨
           (isTokenExpired now c = false ∧ isTokenNotYetValid now c = true ∧
              8640000000000000 < (c.nbf.getD 0 * 1000).natAbs)))) ∧
    (clientGetTokenInfo bd jp now config = none ↔
       (strTruthy config.authToken = false ∨
         ∃ e, parseJWTToken bd jp (stripBearer (config.authToken.getD "")) = Except.error e)) ∧
    (∀ info : TokenInfo, clientGetTokenInfo bd jp now config = some info →
       ∃ c : JWTClaims,
         parseJWTToken bd jp (stripBearer (config.authToken.getD "")) = Except.ok c ∧
         info = { claims := c, isExpired := isTokenExpired now c,
                  expiresIn := tokenExpiresIn now c }) := by
  refine ⟨?_, ?_, ?_⟩
  · cases htr : strTruthy config.authToken with
    | false =>
      constructor
      · rintro ⟨e, h⟩
        rw [clientValidateToken, htr] at h
        exact absurd h (by simp)
      · rintro ⟨h, -⟩
        exact absurd h (by simp)
    | true =>
      have hcv : clientValidateToken bd jp isoFmt now config =
          validateAuthToken bd jp isoFmt now (config.authToken.getD "") := by
        rw [clientValidateToken, htr]
        rfl
      rw [hcv]
      constructor
      · intro h
        obtain ⟨ha, hb, hcond⟩ :=
          (validateAuthToken_error_iff bd jp isoFmt now (config.authToken.getD "")).mp h
        exact ⟨rfl, ha, hb, hcond⟩
      · rintro ⟨-, ha, hb, hcond⟩
        exact (validateAuthToken_error_iff bd jp isoFmt now
          (config.authToken.getD "")).mpr ⟨ha, hb, hcond⟩
  · cases htr : strTruthy config.authToken with
    | false =>
      simp [clientGetTokenInfo, htr]
    | true =>
      cases hres : parseJWTToken bd jp (stripBearer (config.authToken.getD "")) with
      | error e =>
        simp [clientGetTokenInfo, getTokenInfo, htr, hres]
      | ok c =>
        simp [clientGetTokenInfo, getTokenInfo, htr, hres]
  · intro info hinfo
    cases htr : strTruthy config.authToken with
    | false =>
      rw [clientGetTokenInfo, htr] at hinfo
      exact absurd hinfo (by simp)
    | true =>
      cases hres : parseJWTToken bd jp (stripBearer (config.authToken.getD "")) with
      | error e =>
        rw [clientGetTokenInfo, htr] at hinfo
        simp [getTokenInfo, hres] at hinfo
      | ok c =>
        refine ⟨c, rfl, ?_⟩
        rw [clientGetTokenInfo, htr] at hinfo
        simp [getTokenInfo, hres] at hinfo
        exact hinfo.symm

/-- Witness for the amended C9: with no token configured, `getTokenInfo()`
is `null`. -/
theorem clientTokenMethods_amended_witness :
    clientGetTokenInfo (fun s => s) (fun _ => Except.error "bad") 0
        ({ } : ClientConfig) = none :=
  ((clientTokenMethods_amended (fun s => s) (fun _ => Except.error "bad")
      (fun _ => "ISO") 0 { }).2.1).mpr (Or.inl rfl)

/-- C10 counterexample: `validateAuthToken` is not total — for a token whose
payload carries `nbf = 9e12`, parsing succeeds, the not-before branch is
reached, and `new Date(9e15).toISOString()` throws an uncaught `RangeError`
(the `try`/`catch` only wraps `parseJWTToken`). -/
theorem validateAuthToken_throw_counterexample :
    validateAuthToken (fun s => s)
        (fun _ => Except.ok { nbf := some 9000000000000 })
        (fun _ => "ISO") 1700000000000 "x.y.z" =
      Except.error "Invalid time value" := by rfl

/-- C10 (amended): `validateAuthToken` throws exactly when the stripped
token contains a dot, `parseJWTToken` succeeds (its throw is always caught
by the `try`/`catch`), and the reached branch formats an out-of-range
timestamp — the claims are expired with `|exp·1000| > 8.64e15`, or not
expired but not yet valid with `|nbf·1000| > 8.64e15` — where
`toISOString` raises an uncaught `RangeError`; on every other input it
returns a `TokenValidation` value. -/
theorem validateAuthToken_total_amended (bd : String → String)
    (jp : String → Except String JWTClaims) (isoFmt : Int → String)
    (now : Int) (token : String) :
    (∃ e, validateAuthToken bd jp isoFmt now token = Except.error e) ↔
      (token ≠ "" ∧ containsDot (stripBearer token) = true ∧
       ∃ c : JWTClaims, parseJWTToken bd jp (stripBearer token) = Except.ok c ∧
         ((isTokenExpired now c = true ∧
             8640000000000000 < (c.exp.getD 0 * 1000).natAbs) ∨
          (isTokenExpired now c = false ∧ isTokenNotYetValid now c = true ∧
             8640000000000000 < (c.nbf.getD 0 * 1000).natAbs))) :=
  validateAuthToken_error_iff bd jp isoFmt now token

/-- Witness for the amended C10 at a concrete out-of-range `nbf`. -/
theorem validateAuthToken_total_amended_witness :
    ∃ e, validateAuthToken (fun s => s)
        (fun _ => Except.ok { nbf := some 9100000000000 })
        (fun _ => "ISO") 0 "q.r.s" = Except.error e :=
  (validateAuthToken_total_amended (fun s => s)
      (fun _ => Except.ok { nbf := some 9100000000000 })
      (fun _ => "ISO") 0 "q.r.s").mpr
    ⟨by decide, by decide, { nbf := some 9100000000000 }, by rfl,
     Or.inr ⟨by decide, by decide, by decide⟩⟩

end Admiral
